import Mathlib

/-!
# Verification of the DWE command-center utility core

Shallow embedding of the two utility components of the repository:

* `calculateNextRun` (src/server.js, lines 342-412): best-effort cron
  next-run estimation producing a display label.
* `fetchAllNotionTasks` / `getDWEStats` (src/unnamed/part_001): paginated
  fetch-and-aggregate with a 5-minute single-entry cache.

JavaScript numbers that can become `NaN` are modelled as `Option Int`
(`none` = NaN); a JS `Date` is modelled as an `Int` of minutes since the
Unix epoch 1970-01-01 00:00 (the code never reads seconds and all setters
preserve the sub-minute part, so minute granularity is exact), wrapped in
`Option` once an operation can invalidate it (`none` = Invalid Date).
Fallible code (the task mapper, which can throw a `TypeError`, and the
paginated fetch) returns `Except`.
-/

set_option autoImplicit false

namespace DWE

/-! ## JavaScript string and number primitives -/

/-- JS `s.split(/\s+/)` on a character list: maximal whitespace runs are
separators; a leading / trailing separator contributes an empty token, and
the empty string yields `[""]`.  The `inWs` flag records whether we are in
the middle of a whitespace run (so a run emits a single boundary). -/
def splitWsAux : Bool → List Char → List (List Char)
  | _, [] => [[]]
  | inWs, c :: rest =>
    if c.isWhitespace then
      if inWs then splitWsAux true rest
      else [] :: splitWsAux true rest
    else
      match splitWsAux false rest with
      | t :: ts => (c :: t) :: ts
      | [] => [[c]]

/-- JS `schedule.split(/\s+/)` (src/server.js line 343). -/
def jsSplitWs (s : String) : List String :=
  (splitWsAux false s.data).map fun l => ⟨l⟩

/-- JS `s.startsWith(pre)`. -/
def strStartsWith (s pre : String) : Bool :=
  pre.data.isPrefixOf s.data

/-- Drop the first `n` characters; used for `s.replace('*' ++ '/', '')`
under the guard that `s` starts with that two-character pattern, where the
first occurrence is at position 0. -/
def strDrop (s : String) (n : Nat) : String :=
  ⟨s.data.drop n⟩

/-- JS `s.includes(c)` for a single character. -/
def strContains (s : String) (c : Char) : Bool :=
  s.data.contains c

/-- Digit run at the front of a character list. -/
def takeDigits (l : List Char) : List Char :=
  l.takeWhile Char.isDigit

/-- Decimal value of a digit run. -/
def digitsToNat (l : List Char) : Nat :=
  l.foldl (fun a c => a * 10 + (c.toNat - 48)) 0

/-- JS `parseInt(s)` restricted to decimal inputs: skip leading
whitespace, read an optional sign and then the longest digit run; `none`
models `NaN` when no digits are found.  (The hexadecimal `0x` form of
`parseInt` is not modelled; no schedule field in the claims uses it, and
the theorems quantifying over all fields depend only on totality.) -/
def parseIntJS (s : String) : Option Int :=
  let l := s.data.dropWhile Char.isWhitespace
  let signed : Int × List Char :=
    match l with
    | '-' :: r => (-1, r)
    | '+' :: r => (1, r)
    | _ => (1, l)
  let ds := takeDigits signed.2
  if ds.isEmpty then none else some (signed.1 * (digitsToNat ds : Int))

/-- JS `x || d` for a possibly-NaN number: `NaN` and `0` are falsy. -/
def jsOrNum (x : Option Int) (d : Int) : Int :=
  match x with
  | some v => if v = 0 then d else v
  | none => d

/-- JS `x || d` for a possibly-undefined string: `undefined` and `""` are
falsy. -/
def jsOrStr (x : Option String) (d : String) : String :=
  match x with
  | some v => if v = "" then d else v
  | none => d

/-- Truthiness of a possibly-undefined string. -/
def truthyStr (x : Option String) : Bool :=
  match x with
  | some v => v ≠ ""
  | none => false

/-- JS `===` between possibly-NaN numbers: any comparison involving `NaN`
is false. -/
def jsEqNum (x y : Option Int) : Bool :=
  match x, y with
  | some a, some b => a = b
  | _, _ => false

/-- JS `x <= y` where `x` may be an Invalid Date (`NaN` compares false). -/
def jsLe (x : Option Int) (y : Int) : Bool :=
  match x with
  | some a => a ≤ y
  | none => false

/-- JS `n.toString()` / template interpolation of a possibly-NaN number. -/
def numToStr (x : Option Int) : String :=
  match x with
  | some v => toString v
  | none => "NaN"

/-- JS `s.padStart(2, '0')`. -/
def padStart2 (s : String) : String :=
  if s.length = 0 then "00" else if s.length = 1 then "0" ++ s else s

/-- JS `s.toLowerCase()` (character-list form of `String.toLower`). -/
def strToLower (s : String) : String :=
  ⟨s.data.map Char.toLower⟩

/-! ## The JS `Date` model

An instant is an `Int` of minutes since 1970-01-01 00:00.  Civil-calendar
conversion uses the standard closed-form Gregorian algorithms so that every
operation is kernel-evaluable. -/

/-- Days-since-epoch to (year, month 1-12, day 1-31), proleptic Gregorian
calendar (the civil-from-days closed form). -/
def civilFromDays (z0 : Int) : Int × Int × Int :=
  let z := z0 + 719468
  let era := Int.fdiv z 146097
  let doe := z - era * 146097
  let yoe := Int.ediv (doe - Int.ediv doe 1460 + Int.ediv doe 36524 - Int.ediv doe 146096) 365
  let y := yoe + era * 400
  let doy := doe - (365 * yoe + Int.ediv yoe 4 - Int.ediv yoe 100)
  let mp := Int.ediv (5 * doy + 2) 153
  let d := doy - Int.ediv (153 * mp + 2) 5 + 1
  let m := if mp < 10 then mp + 3 else mp - 9
  (y + (if m ≤ 2 then 1 else 0), m, d)

/-- Civil (year, month 1-12, day) to days since the epoch (days-from-civil
closed form); used only to build concrete test instants. -/
def daysFromCivil (y m d : Int) : Int :=
  let yy := y - (if m ≤ 2 then 1 else 0)
  let era := Int.fdiv yy 400
  let yoe := yy - era * 400
  let mp := if 2 < m then m - 3 else m + 9
  let doy := Int.ediv (153 * mp + 2) 5 + d - 1
  let doe := yoe * 365 + Int.ediv yoe 4 - Int.ediv yoe 100 + doy
  era * 146097 + doe - 719468

/-- Concrete instant from year, JS month (0-11), day, hour, minute. -/
def mkDT (y mJS d hh mm : Int) : Int :=
  daysFromCivil y (mJS + 1) d * 1440 + hh * 60 + mm

/-- JS `Date.prototype.getMinutes` (UTC-normalized model). -/
def jsGetMinutes (t : Int) : Int := t % 60

/-- JS `Date.prototype.getHours`. -/
def jsGetHours (t : Int) : Int := (t / 60) % 24

/-- JS `Date.prototype.getDay` (0 = Sunday); 1970-01-01 was a Thursday. -/
def jsGetDay (t : Int) : Int := (t / 1440 + 4) % 7

/-- JS `Date.prototype.getDate` (day of month, 1-based). -/
def jsGetDate (t : Int) : Int := (civilFromDays (t / 1440)).2.2

/-- JS `Date.prototype.getMonth` (0-11). -/
def jsGetMonth (t : Int) : Int := (civilFromDays (t / 1440)).2.1 - 1

/-- JS `d.setMinutes(m)`: replace the minute within the current hour,
carrying overflow / borrow. -/
def jsSetMinutes (t m : Int) : Int := t - t % 60 + m

/-- JS `d.setHours(h)`: replace the hour within the current day, keeping
the minute, carrying overflow / borrow. -/
def jsSetHours (t h : Int) : Int := t - t % 1440 + h * 60 + t % 60

/-- JS `d.setDate(dd)`: replace the day of month, keeping the time of day;
out-of-range values roll across month boundaries. -/
def jsSetDate (t dd : Int) : Int :=
  let z := t / 1440
  let day := (civilFromDays z).2.2
  (z - (day - 1) + (dd - 1)) * 1440 + t % 1440

/-- Setter on a possibly-invalid date with a possibly-NaN argument: an
Invalid Date stays invalid, a NaN argument invalidates the date. -/
def oSet (f : Int → Int → Int) : Option Int → Option Int → Option Int
  | some t, some v => some (f t v)
  | _, _ => none

/-- Getter on a possibly-invalid date (`none` = NaN). -/
def oGet (f : Int → Int) : Option Int → Option Int
  | some t => some (f t)
  | none => none

/-- Addition of possibly-NaN numbers. -/
def oAdd : Option Int → Option Int → Option Int
  | some a, some b => some (a + b)
  | _, _ => none

/-- JS `x >= y` where `x` may be NaN (compares false). -/
def jsGe (x : Option Int) (y : Int) : Bool :=
  match x with
  | some a => y ≤ a
  | none => false

/-! ## CronNextRunEstimator: `calculateNextRun` (src/server.js 342-412) -/

/-- Abbreviated en-US weekday name used by `toLocaleDateString` with the
short weekday option, for a valid date with the given `getDay` value. -/
def weekdayShortName (d : Int) : String :=
  ["Sun", "Mon", "Tue", "Wed", "Thu", "Fri", "Sat"].getD d.toNat "?"

/-- Lines 351-367: minute resolution.  Returns the candidate (`none` =
Invalid Date) and the `hourModified` flag.  A NaN step value makes
`nextMin` NaN: `NaN >= 60` is false, so the code runs `setMinutes(NaN)`
and invalidates the date; a zero step divides by zero, and
`Math.floor(Infinity) * 0 + 0` is again NaN. -/
def minuteStep (now : Int) (minute : String) : Option Int × Bool :=
  if strStartsWith minute "*/" then
    match parseIntJS (strDrop minute 2) with
    | none => (none, false)
    | some interval =>
      if interval = 0 then (none, false)
      else
        let currentMin := jsGetMinutes now
        let nextMin := Int.fdiv currentMin interval * interval + interval
        if 60 ≤ nextMin then
          (some (jsSetMinutes (jsSetHours now (jsGetHours now + 1)) (nextMin - 60)), true)
        else
          (some (jsSetMinutes now nextMin), false)
  else if minute = "*" then
    (some (jsSetMinutes now (jsGetMinutes now + 1)), false)
  else
    match parseIntJS minute with
    | none => (none, false)
    | some m => (some (jsSetMinutes now m), false)

/-- Lines 369-385: hour resolution, taking the result of `minuteStep`.
The step form is skipped when the minute field was itself a step; the
literal form is skipped when the minute rollover already advanced the
hour, and otherwise rolls the date forward a day when the candidate is
not strictly after `now`. -/
def hourStep (now : Int) (minute hour : String) (st : Option Int × Bool) : Option Int :=
  if strStartsWith hour "*/" then
    if strStartsWith minute "*/" then st.1
    else
      oSet jsSetMinutes
        (oSet jsSetHours st.1 ((parseIntJS (strDrop hour 2)).map (jsGetHours now + ·)))
        (some 0)
  else if hour ≠ "*" then
    if st.2 then st.1
    else
      let next := oSet jsSetHours st.1 (parseIntJS hour)
      if jsLe next now then oSet jsSetDate next (oAdd (oGet jsGetDate next) (some 1))
      else next
  else st.1

/-- Lines 387-397: day-of-week resolution for a literal day (not `*`, no
`/`).  `daysUntil` uses the JS remainder `%` (sign of the dividend,
`Int.tmod`); `NaN === 0` is false, so a NaN target falls into the `else`
branch and invalidates the date via `setDate(NaN)`. -/
def dowStep (now : Int) (dayOfWeek : String) (next : Option Int) : Option Int :=
  if dayOfWeek ≠ "*" ∧ strContains dayOfWeek '/' = false then
    let targetDay := parseIntJS dayOfWeek
    let currentDay := jsGetDay now
    let daysUntil := targetDay.map fun td => Int.tmod (td - currentDay + 7) 7
    if jsEqNum daysUntil (some 0) && jsLe next now then
      oSet jsSetDate next (oAdd (oGet jsGetDate next) (some 7))
    else
      oSet jsSetDate next (oAdd (oGet jsGetDate next) daysUntil)
  else next

/-- Lines 399-405: 12-hour clock rendering.  `hours % 12 || 12` maps both
`0` and NaN to `12`; NaN minutes render as the string `NaN`. -/
def timeStrOf (next : Option Int) : String :=
  let hours := oGet jsGetHours next
  let mins := oGet jsGetMinutes next
  let ampm := if jsGe hours 12 then "PM" else "AM"
  let displayHours := jsOrNum (hours.map (Int.tmod · 12)) 12
  let displayMins := padStart2 (numToStr mins)
  toString displayHours ++ ":" ++ displayMins ++ strToLower ampm

/-- Lines 406-409: day prefix.  `isToday` compares day-of-month and month;
`isTomorrow` compares only `next.getDate() === now.getDate() + 1` (no
month component); `toLocaleDateString` on an Invalid Date yields the
string `Invalid Date`. -/
def dayLabelOf (now : Int) (next : Option Int) : String :=
  let isToday := jsEqNum (oGet jsGetDate next) (some (jsGetDate now)) &&
                 jsEqNum (oGet jsGetMonth next) (some (jsGetMonth now))
  let isTomorrow := jsEqNum (oGet jsGetDate next) (some (jsGetDate now + 1))
  if isToday then ""
  else if isTomorrow then "Tomorrow "
  else (match next with
        | some t => weekdayShortName (jsGetDay t)
        | none => "Invalid Date") ++ " "

/-- Line 411: the returned display label. -/
def formatLabel (now : Int) (next : Option Int) : String :=
  dayLabelOf now next ++ timeStrOf next

/-- Lines 342-412 on already-split fields: fewer than 5 fields yields the
sentinel; otherwise the first five fields are destructured
(day-of-month and month are never read) and the three resolution steps
run in order, followed by formatting. -/
def calculateNextRunParts (parts : List String) (now : Int) : String :=
  match parts with
  | minute :: hour :: _dayOfMonth :: _month :: dayOfWeek :: _ =>
    formatLabel now (dowStep now dayOfWeek (hourStep now minute hour (minuteStep now minute)))
  | _ => "Unknown"

/-- `calculateNextRun(schedule)` with the current instant made explicit
(the spec's `estimateNextRun(scheduleString, now)`). -/
def calculateNextRun (schedule : String) (now : Int) : String :=
  calculateNextRunParts (jsSplitWs schedule) now

/-! ## PaginatedAggregateFetcher: `fetchAllNotionTasks` / `getDWEStats`
(src/unnamed/part_001, lines 15-144)

Each optional chain of the raw-record mapper (e.g.
`props.Status?.status?.name`) is collapsed to a single `Option` field:
absence at any level of the chain yields `undefined`, which behaves
identically, so the collapse is behavior-preserving.  `task.properties`
itself is NOT behind an optional chain — `props.Status` on an absent
container throws a `TypeError` — so the mapper returns `Except`. -/

/-- The nested optional property values read by the mapper (lines 55-69),
one field per optional chain. -/
structure RawProps where
  statusName : Option String
  statusSelectName : Option String
  idNumber : Option Int
  titleText : Option String
  priorityName : Option String
  roleName : Option String
  dueStart : Option String
  pastDueBool : Option Bool
  summaryText : Option String
deriving DecidableEq, Repr

/-- A raw record of one page: `task.id` and the `properties` container
(absent when the upstream omits it). -/
structure RawTask where
  id : String
  properties : Option RawProps
deriving DecidableEq, Repr

/-- The mapped TaskRecord (the object literal of lines 60-70). -/
structure Task where
  id : String
  idNumber : Int
  name : String
  status : String
  priority : String
  role : String
  dueDate : Option String
  pastDue : Bool
  summary : String
deriving DecidableEq, Repr

/-- `props['Due date']?.date?.start || null`: `undefined` and `""` are
falsy and yield `null`. -/
def jsOrNull (x : Option String) : Option String :=
  match x with
  | some v => if v = "" then none else some v
  | none => none

/-- `props['Past due']?.formula?.boolean || false`. -/
def jsOrBool (x : Option Bool) : Bool :=
  match x with
  | some v => v
  | none => false

/-- `x || 0` for the possibly-undefined sequence id. -/
def jsOrZero (x : Option Int) : Int :=
  match x with
  | some v => if v = 0 then 0 else v
  | none => 0

/-- Lines 54-70: map one raw record.  `const props = task.properties`
followed by `props.Status?...` throws a `TypeError` when `properties` is
absent; otherwise every missing nested field falls back to its default. -/
def mapTask (task : RawTask) : Except String Task :=
  match task.properties with
  | none => .error "TypeError: Cannot read properties of undefined (reading Status)"
  | some props =>
    let status :=
      if truthyStr props.statusName then props.statusName.getD ""
      else if truthyStr props.statusSelectName then props.statusSelectName.getD ""
      else "No Status"
    .ok
      { id := task.id
        idNumber := jsOrZero props.idNumber
        name := jsOrStr props.titleText "Untitled"
        status := status
        priority := jsOrStr props.priorityName "Medium"
        role := jsOrStr props.roleName "Unassigned"
        dueDate := jsOrNull props.dueStart
        pastDue := jsOrBool props.pastDueBool
        summary := jsOrStr props.summaryText "" }

/-- `response.results.map(...)` with exception propagation: the records
are mapped in order and the first thrown `TypeError` escapes. -/
def mapTasks : List RawTask → Except String (List Task)
  | [] => .ok []
  | t :: ts =>
    match mapTask t with
    | .error e => .error e
    | .ok r =>
      match mapTasks ts with
      | .error e => .error e
      | .ok rs => .ok (r :: rs)

/-- One upstream response: the `results` page (`none` when the field is
absent or falsy; an empty array is truthy and is `some []`) and the
`has_more` flag.  `next_cursor` is only threaded into the next request
body and never influences the control flow, so it is not modelled. -/
structure NotionResponse where
  results : Option (List RawTask)
  has_more : Bool
deriving Repr

/-- Lines 20-77: the pagination loop.  The input list is the sequence of
upstream responses in arrival order; running past its end models a
network failure of the next request (the promise rejecting).  The guard
`hasMore && allTasks.length < 3000` is re-checked before every request,
and the consumed page is appended whole. -/
def fetchLoop (hasMore : Bool) (acc : List Task) : List NotionResponse → Except String (List Task)
  | [] =>
    if hasMore ∧ acc.length < 3000 then .error "network error" else .ok acc
  | r :: rest =>
    if hasMore ∧ acc.length < 3000 then
      match (match r.results with
             | some rs => (mapTasks rs).map fun ts => acc ++ ts
             | none => .ok acc) with
      | .error e => .error e
      | .ok acc2 => fetchLoop r.has_more acc2 rest
    else .ok acc

/-- `fetchAllNotionTasks()` against a given upstream response sequence:
`allTasks = []`, `hasMore = true` initially. -/
def fetchAllNotionTasks (responses : List NotionResponse) : Except String (List Task) :=
  fetchLoop true [] responses

/-! ### `getDWEStats` (lines 82-144) -/

/-- The object stored in the module-level `cachedStats` (lines 119-127).
`lastUpdated` (`new Date().toISOString()`) is modelled as the instant it
was produced. -/
structure CachedStats where
  total : Int
  completed : Int
  inProgress : Int
  remaining : Int
  maxId : Int
  activeTasks : Int
  lastUpdated : Int
deriving DecidableEq, Repr

/-- The module-level mutable state: `cachedStats` and `cacheTime`
(initially `null` / `0`). -/
structure CacheState where
  cachedStats : Option CachedStats
  cacheTime : Int
deriving DecidableEq, Repr

/-- A value returned by `getDWEStats`.  `cached` models the presence of
the `cached: true` annotation (absent = `false`); `activeTasks` is absent
on the fallback payloads; `error` is the attached error message when
present. -/
structure StatsResult where
  total : Int
  completed : Int
  inProgress : Int
  remaining : Int
  maxId : Int
  activeTasks : Option Int
  lastUpdated : Int
  cached : Bool
  error : Option String
deriving DecidableEq, Repr

/-- Returning a `cachedStats` object as-is (line 130 / line 134) or
spread with `cached: true` (line 87): no error field is attached. -/
def toResult (c : CachedStats) (cachedFlag : Bool) : StatsResult :=
  { total := c.total, completed := c.completed, inProgress := c.inProgress
    remaining := c.remaining, maxId := c.maxId, activeTasks := some c.activeTasks
    lastUpdated := c.lastUpdated, cached := cachedFlag, error := none }

/-- The hard-coded baseline payload (lines 91-99 and 134-142): total 1020,
completed 562, inProgress 4, remaining 458, maxId 1020, no activeTasks. -/
def fallbackStats (errMsg : String) (now : Int) : StatsResult :=
  { total := 1020, completed := 562, inProgress := 4, remaining := 458
    maxId := 1020, activeTasks := none, lastUpdated := now, cached := false
    error := some errMsg }

/-- The cache TTL `CACHE_DURATION = 5 * 60 * 1000` (milliseconds, line 13). -/
def CACHE_DURATION : Int := 5 * 60 * 1000

/-- Lines 107-112: the completed bucket (case-sensitive). -/
def isCompletedStatus (t : Task) : Bool :=
  t.status == "Done" || t.status == "Completed" || t.status == "Complete" || t.status == "Review"

/-- Lines 113-116: the in-progress bucket (case-sensitive). -/
def isInProgressStatus (t : Task) : Bool :=
  t.status == "In Progress" || t.status == "In progress"

/-- Lines 90-143: the cache-miss path of `getDWEStats`.  The key check
precedes the try block; on fetch success the aggregate is computed,
stored, and returned; on failure a pre-existing cache entry is returned
unmodified, else the baseline with the error message.  The third
component records whether the fetch collaborator was invoked. -/
def getDWEStatsMiss (st : CacheState) (now : Int) (apiKey : String)
    (fetchResult : Except String (List Task)) : StatsResult × CacheState × Bool :=
  if apiKey = "" then
    (fallbackStats "Notion API key not configured" now, st, false)
  else
    match fetchResult with
    | .ok allTasks =>
      let total : Int := allTasks.length
      let completed : Int := (allTasks.filter isCompletedStatus).length
      let inProgress : Int := (allTasks.filter isInProgressStatus).length
      let maxId : Int := allTasks.foldl (fun mx t => max mx (jsOrZero (some t.idNumber))) 0
      let newStats : CachedStats :=
        { total := maxId, completed := completed, inProgress := inProgress
          remaining := maxId - completed, maxId := maxId, activeTasks := total
          lastUpdated := now }
      (toResult newStats false, { cachedStats := some newStats, cacheTime := now }, true)
    | .error e =>
      match st.cachedStats with
      | some c => (toResult c false, st, true)
      | none => (fallbackStats e now, st, true)

/-- Lines 82-144: `getDWEStats`.  `now = Date.now()` (milliseconds) and
the awaited result of `fetchAllNotionTasks()` are made explicit; line 86
serves a fresh cache entry with `cached: true` without touching the
network (third component `false`). -/
def getDWEStats (st : CacheState) (now : Int) (apiKey : String)
    (fetchResult : Except String (List Task)) : StatsResult × CacheState × Bool :=
  match st.cachedStats with
  | some c =>
    if now - st.cacheTime < CACHE_DURATION then (toResult c true, st, false)
    else getDWEStatsMiss st now apiKey fetchResult
  | none => getDWEStatsMiss st now apiKey fetchResult

/-! ## Shared concrete sample values -/

/-- A properties container with every nested optional chain absent. -/
def emptyProps : RawProps :=
  { statusName := none, statusSelectName := none, idNumber := none
    titleText := none, priorityName := none, roleName := none
    dueStart := none, pastDueBool := none, summaryText := none }

/-- A raw record whose container is present but empty. -/
def sampleRaw : RawTask := { id := "page-item", properties := some emptyProps }

/-- The fully-defaulted TaskRecord `sampleRaw` maps to. -/
def sampleTask : Task :=
  { id := "page-item", idNumber := 0, name := "Untitled", status := "No Status"
    priority := "Medium", role := "Unassigned", dueDate := none
    pastDue := false, summary := "" }

/-- A concrete small task list for witnesses. -/
def sampleTasks : List Task :=
  [{ id := "a", idNumber := 7, name := "n1", status := "Done", priority := "High"
     role := "Dev", dueDate := none, pastDue := false, summary := "" },
   { id := "b", idNumber := 3, name := "n2", status := "Todo", priority := "Low"
     role := "Ops", dueDate := some "2026-01-01", pastDue := true, summary := "s" }]

/-- A concrete cache entry for counterexamples and witnesses. -/
def sampleCached : CachedStats :=
  { total := 10, completed := 2, inProgress := 1, remaining := 8, maxId := 10
    activeTasks := 5, lastUpdated := 500 }

/-! ## Claim C1: fresh cache entries are served without fetching -/

/-- C1: if a cache entry exists and `now - cacheTime < CACHE_DURATION`,
`getDWEStats` returns the cached payload annotated `cached = true`, leaves
the state untouched and does not invoke the fetch collaborator (third
component `false`); consequently, when a call performs a successful fresh
fetch and a second call follows within the TTL window, the second call
returns the same payload with `cached := true` and no fetch. -/
theorem getDWEStats_cache_hit :
    (∀ (st : CacheState) (now : Int) (apiKey : String)
       (fr : Except String (List Task)) (c : CachedStats),
       st.cachedStats = some c → now - st.cacheTime < CACHE_DURATION →
       getDWEStats st now apiKey fr = (toResult c true, st, false))
  ∧ (∀ (st0 : CacheState) (n1 n2 : Int) (key : String) (tasks : List Task)
       (f2 : Except String (List Task)),
       st0.cachedStats = none → key ≠ "" → n2 - n1 < CACHE_DURATION →
       (getDWEStats (getDWEStats st0 n1 key (.ok tasks)).2.1 n2 key f2).1
           = { (getDWEStats st0 n1 key (.ok tasks)).1 with cached := true }
       ∧ (getDWEStats (getDWEStats st0 n1 key (.ok tasks)).2.1 n2 key f2).2.2 = false) := by
  constructor
  · intro st now apiKey fr c hc hfresh
    simp [getDWEStats, hc, hfresh]
  · intro st0 n1 n2 key tasks f2 hnone hkey httl
    simp only [getDWEStats, hnone, getDWEStatsMiss, hkey, if_neg]
    simp [toResult, httl]

/-- Witness for C1 at concrete inputs. -/
theorem getDWEStats_cache_hit_witness :
    (getDWEStats (getDWEStats ⟨none, 0⟩ 1000 "key" (.ok sampleTasks)).2.1 1500 "key"
        (.error "later")).1
      = { (getDWEStats ⟨none, 0⟩ 1000 "key" (.ok sampleTasks)).1 with cached := true }
  ∧ (getDWEStats (getDWEStats ⟨none, 0⟩ 1000 "key" (.ok sampleTasks)).2.1 1500 "key"
        (.error "later")).2.2 = false :=
  getDWEStats_cache_hit.2 ⟨none, 0⟩ 1000 1500 "key" sampleTasks (.error "later")
    rfl (by decide) (by decide)

/-! ## Claim C2: failure fallback -/

/-- C2: when the key is configured, the cache did not serve the call, and
the fetch pass fails, `getDWEStats` returns the existing cache entry if
one exists, and otherwise the hard-coded baseline payload (total 1020,
completed 562, inProgress 4, remaining 458, maxId 1020) with the error
message attached; in both cases a value is returned (the failure does not
propagate: the embedding is total and the result is a plain pair). -/
theorem getDWEStats_failure_fallback :
    ∀ (st : CacheState) (now : Int) (key : String) (e : String),
      key ≠ "" → (st.cachedStats = none ∨ CACHE_DURATION ≤ now - st.cacheTime) →
      (∀ c, st.cachedStats = some c →
        getDWEStats st now key (.error e) = (toResult c false, st, true))
      ∧ (st.cachedStats = none →
        getDWEStats st now key (.error e) = (fallbackStats e now, st, true)
        ∧ (fallbackStats e now).total = 1020 ∧ (fallbackStats e now).completed = 562
        ∧ (fallbackStats e now).inProgress = 4 ∧ (fallbackStats e now).remaining = 458
        ∧ (fallbackStats e now).maxId = 1020 ∧ (fallbackStats e now).error = some e) := by
  intro st now key e hkey hmiss
  constructor
  · intro c hc
    rcases hmiss with h | h
    · rw [hc] at h; cases h
    · simp [getDWEStats, hc, getDWEStatsMiss, hkey, not_lt.mpr h]
  · intro hc
    simp [getDWEStats, hc, getDWEStatsMiss, hkey, fallbackStats]

/-- Witness for C2: both fallback shapes at concrete inputs. -/
theorem getDWEStats_failure_fallback_witness :
    getDWEStats ⟨some sampleCached, 0⟩ 1000000 "key" (.error "boom")
      = (toResult sampleCached false, ⟨some sampleCached, 0⟩, true)
  ∧ getDWEStats ⟨none, 0⟩ 1000000 "key" (.error "boom")
      = (fallbackStats "boom" 1000000, ⟨none, 0⟩, true) :=
  ⟨(getDWEStats_failure_fallback ⟨some sampleCached, 0⟩ 1000000 "key" "boom"
      (by decide) (Or.inr (by decide))).1 sampleCached rfl,
   ((getDWEStats_failure_fallback ⟨none, 0⟩ 1000000 "key" "boom"
      (by decide) (Or.inl rfl)).2 rfl).1⟩

/-! ## Claim C8: error detail on the fallback paths (corrected) -/

/-- C8 counterexample: on the stale-cache fallback path the failure
detail is NOT attached — the cached payload is returned with no error
field (line 134 returns `cachedStats` as-is), refuting the claim that
error detail is carried on both fallback paths. -/
theorem stale_fallback_error_counterexample :
    (getDWEStats ⟨some sampleCached, 0⟩ 2000000 "key" (.error "boom")).1.error = none
  ∧ (getDWEStats ⟨some sampleCached, 0⟩ 2000000 "key" (.error "boom")).1
      = toResult sampleCached false := by
  constructor <;> rfl

/-- C8 amended: on a fetch failure the error detail is attached only on
the no-cache baseline path; the stale-cache path returns the cached
payload unchanged, whose error field is `none`.  In both cases the call
returns a value (the embedding is total), so the failure is never thrown
to the caller. -/
theorem getDWEStats_error_detail_amended :
    ∀ (st : CacheState) (now : Int) (key : String) (e : String),
      key ≠ "" → (st.cachedStats = none ∨ CACHE_DURATION ≤ now - st.cacheTime) →
      (st.cachedStats = none →
        (getDWEStats st now key (.error e)).1.error = some e)
      ∧ (∀ c, st.cachedStats = some c →
        (getDWEStats st now key (.error e)).1 = toResult c false
        ∧ (getDWEStats st now key (.error e)).1.error = none) := by
  intro st now key e hkey hmiss
  constructor
  · intro hc
    simp [getDWEStats, hc, getDWEStatsMiss, hkey, fallbackStats]
  · intro c hc
    rcases hmiss with h | h
    · rw [hc] at h; cases h
    · simp [getDWEStats, hc, getDWEStatsMiss, hkey, not_lt.mpr h, toResult]

/-- Witness for the amended C8 at concrete inputs. -/
theorem getDWEStats_error_detail_amended_witness :
    (getDWEStats ⟨none, 7⟩ 2500000 "key" (.error "oops")).1.error = some "oops"
  ∧ (getDWEStats ⟨some sampleCached, 7⟩ 2500000 "key" (.error "oops")).1
      = toResult sampleCached false :=
  ⟨(getDWEStats_error_detail_amended ⟨none, 7⟩ 2500000 "key" "oops"
      (by decide) (Or.inl rfl)).1 rfl,
   ((getDWEStats_error_detail_amended ⟨some sampleCached, 7⟩ 2500000 "key" "oops"
      (by decide) (Or.inr (by decide))).2 sampleCached rfl).1⟩

/-! ## Claim C10: fresh payload consistency -/

/-- C10: every payload produced by a successful fresh fetch-and-aggregate
pass satisfies `remaining = total - completed` and `total = maxId`. -/
theorem getDWEStats_fresh_consistency :
    ∀ (st : CacheState) (now : Int) (key : String) (tasks : List Task),
      key ≠ "" → (st.cachedStats = none ∨ CACHE_DURATION ≤ now - st.cacheTime) →
      (getDWEStats st now key (.ok tasks)).1.remaining
          = (getDWEStats st now key (.ok tasks)).1.total
            - (getDWEStats st now key (.ok tasks)).1.completed
      ∧ (getDWEStats st now key (.ok tasks)).1.total
          = (getDWEStats st now key (.ok tasks)).1.maxId := by
  intro st now key tasks hkey hmiss
  rcases h : st.cachedStats with _ | c
  · simp [getDWEStats, h, getDWEStatsMiss, hkey, toResult]
  · rcases hmiss with hn | hstale
    · rw [h] at hn; cases hn
    · simp [getDWEStats, h, getDWEStatsMiss, hkey, not_lt.mpr hstale, toResult]

/-- Witness for C10 at concrete inputs. -/
theorem getDWEStats_fresh_consistency_witness :
    (getDWEStats ⟨none, 0⟩ 3000 "key" (.ok sampleTasks)).1.remaining
        = (getDWEStats ⟨none, 0⟩ 3000 "key" (.ok sampleTasks)).1.total
          - (getDWEStats ⟨none, 0⟩ 3000 "key" (.ok sampleTasks)).1.completed
    ∧ (getDWEStats ⟨none, 0⟩ 3000 "key" (.ok sampleTasks)).1.total
        = (getDWEStats ⟨none, 0⟩ 3000 "key" (.ok sampleTasks)).1.maxId :=
  getDWEStats_fresh_consistency ⟨none, 0⟩ 3000 "key" sampleTasks (by decide) (Or.inl rfl)

/-! ## Claim C7: record mapping and fallback defaults (corrected) -/

/-- C7 counterexample: when the record's `properties` container itself is
absent, the mapper throws (`props.Status` on `undefined` is a
`TypeError` — the optional chain starts only after `.Status`), refuting
the claim that the mapping never throws in that case. -/
theorem mapTask_missing_props_counterexample :
    mapTask { id := "orphan", properties := none }
      = .error "TypeError: Cannot read properties of undefined (reading Status)"
  ∧ (mapTask { id := "orphan", properties := none }).isOk = false := by
  constructor <;> rfl

/-- C7 amended: provided the `properties` container is present, mapping
never throws, and every missing nested field yields its documented
default: status "No Status", name "Untitled", priority "Medium", role
"Unassigned", dueDate null, pastDue false, summary "", idNumber 0. -/
theorem mapTask_defaults_amended :
    (∀ (task : RawTask) (props : RawProps),
      task.properties = some props → (mapTask task).isOk = true)
  ∧ mapTask { id := "x", properties := some emptyProps }
      = .ok { id := "x", idNumber := 0, name := "Untitled", status := "No Status"
              priority := "Medium", role := "Unassigned", dueDate := none
              pastDue := false, summary := "" } := by
  constructor
  · intro task props hp
    simp [mapTask, hp, Except.isOk, Except.toBool]
  · rfl

/-- Witness for the amended C7 at a concrete input. -/
theorem mapTask_defaults_amended_witness :
    (mapTask { id := "w", properties := some emptyProps }).isOk = true :=
  mapTask_defaults_amended.1 { id := "w", properties := some emptyProps } emptyProps rfl

/-! ## Claim C3: the 3000-record cap (corrected) -/

/-- Mapping a page of `n` copies of the empty-container record succeeds
with `n` fully-defaulted TaskRecords. -/
theorem mapTasks_replicate (n : Nat) :
    mapTasks (List.replicate n sampleRaw) = .ok (List.replicate n sampleTask) := by
  induction n with
  | zero => rfl
  | succ k ih => simp [List.replicate_succ, mapTasks, ih]; rfl

/-- An upstream page carrying 100 records, still reporting more. -/
def page100 : NotionResponse :=
  { results := some (List.replicate 100 sampleRaw), has_more := true }

/-- An upstream page carrying 3500 records, still reporting more. -/
def page3500 : NotionResponse :=
  { results := some (List.replicate 3500 sampleRaw), has_more := true }

/-- A single oversized page with `has_more = true` is appended whole and
the loop then exits, returning every mapped record. -/
theorem fetch_single_big_page (rs : List RawTask) (ts : List Task)
    (hmap : mapTasks rs = .ok ts) (hlen : 3000 ≤ ts.length) :
    fetchAllNotionTasks [{ results := some rs, has_more := true }] = .ok ts := by
  show fetchLoop true [] [{ results := some rs, has_more := true }] = _
  rw [fetchLoop]
  rw [if_pos ⟨rfl, by decide⟩]
  simp only [hmap, Except.map, List.nil_append]
  rw [fetchLoop]
  rw [if_neg (by simp only [true_and, not_lt]; omega)]

/-- C3 counterexample: with `has_more` continuously true, a page larger
than the cap makes the loop exit with 3500 accumulated records, not
exactly 3000 — the guard `allTasks.length < 3000` is checked before a
page is appended whole. -/
theorem fetch_cap_counterexample :
    fetchAllNotionTasks [page3500] = .ok (List.replicate 3500 sampleTask)
  ∧ (List.replicate 3500 sampleTask).length ≠ 3000 := by
  constructor
  · exact fetch_single_big_page (List.replicate 3500 sampleRaw)
      (List.replicate 3500 sampleTask) (mapTasks_replicate 3500)
      (by rw [List.length_replicate]; omega)
  · rw [List.length_replicate]; omega

/-- Loop invariant for the amended C3: starting from `100 * k`
accumulated records with at least `30 - k` full pages available, the
loop exits with exactly `100 * max k 30` records. -/
theorem fetchLoop_page100 (m k : Nat) (h : 30 ≤ k + m) :
    fetchLoop true (List.replicate (100 * k) sampleTask) (List.replicate m page100)
      = .ok (List.replicate (100 * max k 30) sampleTask) := by
  induction m generalizing k with
  | zero =>
    have hk : 30 ≤ k := by omega
    rw [List.replicate_zero, fetchLoop]
    rw [if_neg (by simp only [List.length_replicate, true_and, not_lt]; omega)]
    rw [Nat.max_eq_left hk]
  | succ n ih =>
    have h1 : page100.results = some (List.replicate 100 sampleRaw) := rfl
    have h2 : page100.has_more = true := rfl
    by_cases hk : k < 30
    · rw [List.replicate_succ, fetchLoop]
      rw [if_pos ⟨rfl, by rw [List.length_replicate]; omega⟩]
      rw [h1]
      simp only [mapTasks_replicate, Except.map]
      rw [h2, ← List.replicate_add]
      have he : 100 * k + 100 = 100 * (k + 1) := by ring
      rw [he, ih (k + 1) (by omega)]
      congr 2
      omega
    · rw [List.replicate_succ, fetchLoop]
      rw [if_neg (by simp only [List.length_replicate, true_and, not_lt]; omega)]
      rw [Nat.max_eq_left (by omega)]

/-- C3 amended: the loop stops the first time the accumulated count
reaches at least 3000 (whenever the upstream always reports has-more true
and the loop exits normally, at least 3000 records were accumulated), and
it stops at exactly 3000 records only under the intended page geometry:
with pages of exactly 100 records (the requested page size) and has-more
always true, the accumulated list at loop exit has length exactly 3000. -/
theorem fetch_cap_amended :
    (∀ (resps : List NotionResponse) (hasMore : Bool) (acc l : List Task),
      (∀ r ∈ resps, r.has_more = true) → hasMore = true →
      fetchLoop hasMore acc resps = .ok l → 3000 ≤ l.length)
  ∧ (∀ m : Nat, 30 ≤ m →
      fetchAllNotionTasks (List.replicate m page100) = .ok (List.replicate 3000 sampleTask)
      ∧ (List.replicate 3000 sampleTask).length = 3000) := by
  constructor
  · intro resps
    induction resps with
    | nil =>
      intro hasMore acc l _ hm hl
      rw [fetchLoop] at hl
      by_cases hlen : acc.length < 3000
      · rw [if_pos ⟨by simp [hm], hlen⟩] at hl; cases hl
      · rw [if_neg (by tauto)] at hl
        cases hl; omega
    | cons r rest ih =>
      intro hasMore acc l hall hm hl
      rw [fetchLoop] at hl
      by_cases hlen : acc.length < 3000
      · rw [if_pos ⟨by simp [hm], hlen⟩] at hl
        rcases hmt : (match r.results with
          | some rs => (mapTasks rs).map fun ts => acc ++ ts
          | none => Except.ok acc) with e | acc2
        · rw [hmt] at hl; cases hl
        · rw [hmt] at hl
          exact ih r.has_more acc2 l (fun q hq => hall q (List.mem_cons_of_mem r hq))
            (hall r (List.mem_cons_self r rest)) hl
      · rw [if_neg (by tauto)] at hl
        cases hl; omega
  · intro m hm
    constructor
    · have h := fetchLoop_page100 m 0 (by omega)
      rw [Nat.max_eq_right (by omega)] at h
      rw [Nat.mul_zero, List.replicate_zero] at h
      norm_num at h
      exact h
    · rw [List.length_replicate]

/-- Witness for the amended C3 at concrete inputs. -/
theorem fetch_cap_amended_witness :
    fetchAllNotionTasks (List.replicate 31 page100) = .ok (List.replicate 3000 sampleTask)
    ∧ (List.replicate 3000 sampleTask).length = 3000 :=
  fetch_cap_amended.2 31 (by decide)

/-! ## Claim C5: the Unknown sentinel (corrected) -/

/-- A string of the shape `a ++ (b ++ ":" ++ c ++ d)` contains a colon and
is therefore never the sentinel `Unknown`. -/
theorem colon_concat_ne_unknown (a b c d : String) :
    a ++ (b ++ ":" ++ c ++ d) ≠ "Unknown" := by
  intro h
  have hx : (a ++ (b ++ ":" ++ c ++ d)).data
      = a.data ++ (b.data ++ [':'] ++ c.data ++ d.data) := by
    simp only [String.data_append]
  have hmem : ':' ∈ (a ++ (b ++ ":" ++ c ++ d)).data := by
    rw [hx]; simp
  rw [h] at hmem
  exact absurd hmem (by decide)

/-- The formatting step always renders a colon-separated clock time, so
its output is never the sentinel. -/
theorem formatLabel_ne_unknown (now : Int) (next : Option Int) :
    formatLabel now next ≠ "Unknown" :=
  colon_concat_ne_unknown (dayLabelOf now next) _ _ _

/-- Fewer than five fields short-circuit to the sentinel (line 344,
`parts.length < 5`). -/
theorem calcParts_short_unknown (parts : List String) (now : Int)
    (h : parts.length < 5) : calculateNextRunParts parts now = "Unknown" := by
  rcases parts with _ | ⟨a, _ | ⟨b, _ | ⟨c, _ | ⟨d, _ | ⟨e, rest⟩⟩⟩⟩⟩
  · rfl
  · rfl
  · rfl
  · rfl
  · rfl
  · simp only [List.length_cons] at h; omega

/-- Five or more fields always reach the formatting step, whose output
contains a colon, hence is never the sentinel. -/
theorem calcParts_long_ne_unknown (parts : List String) (now : Int)
    (h : 5 ≤ parts.length) : calculateNextRunParts parts now ≠ "Unknown" := by
  rcases parts with _ | ⟨a, _ | ⟨b, _ | ⟨c, _ | ⟨d, _ | ⟨e, rest⟩⟩⟩⟩⟩
  · exact absurd h (by simp)
  · exact absurd h (by simp)
  · exact absurd h (by simp)
  · exact absurd h (by simp)
  · exact absurd h (by simp)
  · exact formatLabel_ne_unknown now _

/-- C5 counterexample: a schedule with six whitespace-split fields has a
field count different from 5, yet the estimator does not return the
sentinel (the code only checks `parts.length < 5` and ignores extra
fields): at 2026-01-12 10:07 it yields the label `10:08am`. -/
theorem nextRun_six_fields_counterexample :
    (jsSplitWs "* * * * * *").length = 6
  ∧ calculateNextRun "* * * * * *" (mkDT 2026 0 12 10 7) = "10:08am"
  ∧ ("10:08am" : String) ≠ "Unknown" := by
  refine ⟨by decide, by decide, by decide⟩

/-- C5 amended: the estimator returns the sentinel `Unknown` exactly for
schedules whose whitespace-split field count is LESS THAN 5; any schedule
with 5 or more fields (extra fields are ignored) yields a non-sentinel
label. -/
theorem nextRun_unknown_amended :
    (∀ (s : String) (now : Int),
      (jsSplitWs s).length < 5 → calculateNextRun s now = "Unknown")
  ∧ (∀ (s : String) (now : Int),
      5 ≤ (jsSplitWs s).length → calculateNextRun s now ≠ "Unknown") := by
  constructor
  · intro s now h
    exact calcParts_short_unknown (jsSplitWs s) now h
  · intro s now h
    exact calcParts_long_ne_unknown (jsSplitWs s) now h

/-- Witness for the amended C5 at concrete schedules. -/
theorem nextRun_unknown_amended_witness :
    calculateNextRun "0 9 *" (mkDT 2026 0 12 10 7) = "Unknown"
  ∧ calculateNextRun "* * * * *" (mkDT 2026 0 12 10 7) ≠ "Unknown" :=
  ⟨nextRun_unknown_amended.1 "0 9 *" (mkDT 2026 0 12 10 7) (by decide),
   nextRun_unknown_amended.2 "* * * * *" (mkDT 2026 0 12 10 7) (by decide)⟩

/-! ## Claim C4: literal-hour Monday schedule (corrected) -/

/-- Setting the day of month to `getDate + k` moves the instant by exactly
`k` days: the civil day-of-month cancels out of `jsSetDate`. -/
theorem jsSetDate_getDate_add (t k : Int) :
    jsSetDate t (jsGetDate t + k) = t + 1440 * k := by
  simp only [jsSetDate, jsGetDate]
  generalize (civilFromDays (t / 1440)).2.2 = d
  omega

/-- C4 counterexample: at Monday 2026-01-12 14:00 the schedule
`0 9 * * 1` yields `Tomorrow 9:00am` — the hour step has already pushed
the candidate to Tuesday 9:00, so the day-of-week step adds 0 days — not
a weekday-prefixed label 7 days later. -/
theorem nextRun_monday_counterexample :
    jsGetDay (mkDT 2026 0 12 14 0) = 1
  ∧ jsGetHours (mkDT 2026 0 12 14 0) = 14
  ∧ jsGetMinutes (mkDT 2026 0 12 14 0) = 0
  ∧ calculateNextRun "0 9 * * 1" (mkDT 2026 0 12 14 0) = "Tomorrow 9:00am"
  ∧ strStartsWith "Tomorrow 9:00am" (weekdayShortName 1) = false := by
  refine ⟨by decide, by decide, by decide, by decide, by decide⟩

/-- C4 amended: for every instant that is a Monday at 14:00 sharp, the
schedule `0 9 * * 1` produces the candidate exactly ONE day later
(Tuesday 9:00 = now + 1140 minutes), because the literal-hour step rolls
the date forward past `now` before the day-of-week step runs, and the
day-of-week distance of 0 then adds nothing; at 2026-01-12 the resulting
label is `Tomorrow 9:00am`. -/
theorem nextRun_monday_amended :
    (∀ now : Int, jsGetDay now = 1 → jsGetHours now = 14 → jsGetMinutes now = 0 →
      calculateNextRunParts ["0", "9", "*", "*", "1"] now
          = formatLabel now (some (now + 1140))
      ∧ jsGetDay (now + 1140) = 2 ∧ jsGetHours (now + 1140) = 9
      ∧ jsGetMinutes (now + 1140) = 0)
  ∧ calculateNextRun "0 9 * * 1" (mkDT 2026 0 12 14 0) = "Tomorrow 9:00am" := by
  constructor
  · intro now hday hhour hmin
    simp only [jsGetDay] at hday
    simp only [jsGetHours] at hhour
    simp only [jsGetMinutes] at hmin
    have e1 : minuteStep now "0" = (some now, false) := by
      show (some (jsSetMinutes now 0), false) = (some now, false)
      simp only [jsSetMinutes]
      have hz : now - now % 60 + 0 = now := by omega
      rw [hz]
    have hsh : jsSetHours now 9 = now - 300 := by
      simp only [jsSetHours]; omega
    have e2 : hourStep now "0" "9" (some now, false) = some (now + 1140) := by
      show (if jsLe (some (jsSetHours now 9)) now = true
            then oSet jsSetDate (some (jsSetHours now 9))
                   (oAdd (oGet jsGetDate (some (jsSetHours now 9))) (some 1))
            else some (jsSetHours now 9)) = some (now + 1140)
      rw [if_pos]
      · show some (jsSetDate (jsSetHours now 9) (jsGetDate (jsSetHours now 9) + 1)) = _
        rw [jsSetDate_getDate_add (jsSetHours now 9) 1, hsh]
        congr 1
        omega
      · show jsLe (some (jsSetHours now 9)) now = true
        simp only [jsLe, hsh, decide_eq_true_eq]
        omega
    have e3 : dowStep now "1" (some (now + 1140)) = some (now + 1140) := by
      have hdu : (Option.map (fun td => (td - jsGetDay now + 7).tmod 7) (parseIntJS "1"))
          = some 0 := by
        simp only [jsGetDay, hday]
        rfl
      simp only [dowStep]
      rw [hdu]
      rw [if_pos (show ("1" : String) ≠ "*" ∧ strContains "1" '/' = false from
        ⟨by decide, by decide⟩)]
      rw [if_neg]
      · show some (jsSetDate (now + 1140) (jsGetDate (now + 1140) + 0)) = _
        rw [jsSetDate_getDate_add (now + 1140) 0]
        congr 1
        omega
      · simp only [jsLe, Bool.and_eq_true, decide_eq_true_eq]
        rintro ⟨-, hcon⟩
        omega
    have emain : calculateNextRunParts ["0", "9", "*", "*", "1"] now
        = formatLabel now (dowStep now "1" (hourStep now "0" "9" (minuteStep now "0"))) := rfl
    refine ⟨?_, by simp only [jsGetDay]; omega, by simp only [jsGetHours]; omega,
      by simp only [jsGetMinutes]; omega⟩
    rw [emain, e1, e2, e3]
  · decide

/-- Witness for the amended C4 at the concrete Monday instant. -/
theorem nextRun_monday_amended_witness :
    calculateNextRunParts ["0", "9", "*", "*", "1"] (mkDT 2026 0 12 14 0)
        = formatLabel (mkDT 2026 0 12 14 0) (some (mkDT 2026 0 12 14 0 + 1140))
    ∧ jsGetDay (mkDT 2026 0 12 14 0 + 1140) = 2
    ∧ jsGetHours (mkDT 2026 0 12 14 0 + 1140) = 9
    ∧ jsGetMinutes (mkDT 2026 0 12 14 0 + 1140) = 0 :=
  nextRun_monday_amended.1 (mkDT 2026 0 12 14 0) (by decide) (by decide) (by decide)

/-! ## Claim C6: minute-step resolution (confirmed) -/

/-- The code's `Math.floor(currentMin / interval) * interval + interval`
(line 355). -/
def nextMinOf (now N : Int) : Int :=
  Int.fdiv (jsGetMinutes now) N * N + N

/-- C6: for every minute field of the form `*/N` (N positive) with all
other fields `*`, the candidate is `now` with its minute replaced by the
current minute rounded up to the next multiple of N
(`hourStart + nextMin`): the rounded value is the least multiple of N
strictly above the current minute; when it stays below 60 the candidate
keeps the hour and it becomes the minute, and when it reaches 60 the
candidate rolls into the next hour with the excess as minutes.  In
particular `*/15` at 10:07 yields 10:15 and at 10:52 rolls to 11:00. -/
theorem nextRun_minute_step :
    (∀ (m : String) (N now : Int),
      strStartsWith m "*/" = true → parseIntJS (strDrop m 2) = some N → 0 < N →
      calculateNextRunParts [m, "*", "*", "*", "*"] now
          = formatLabel now (some (now - jsGetMinutes now + nextMinOf now N))
      ∧ jsGetMinutes now < nextMinOf now N
      ∧ nextMinOf now N ≤ jsGetMinutes now + N
      ∧ nextMinOf now N % N = 0
      ∧ (nextMinOf now N < 60 →
          (now - jsGetMinutes now + nextMinOf now N) / 60 = now / 60
          ∧ jsGetMinutes (now - jsGetMinutes now + nextMinOf now N) = nextMinOf now N)
      ∧ (60 ≤ nextMinOf now N → nextMinOf now N < 120 →
          (now - jsGetMinutes now + nextMinOf now N) / 60 = now / 60 + 1
          ∧ jsGetMinutes (now - jsGetMinutes now + nextMinOf now N)
              = nextMinOf now N - 60))
  ∧ calculateNextRun "*/15 * * * *" (mkDT 2026 0 12 10 7) = "10:15am"
  ∧ calculateNextRun "*/15 * * * *" (mkDT 2026 0 12 10 52) = "11:00am" := by
  refine ⟨?_, by decide, by decide⟩
  intro m N now hsw hparse hN
  have hN0 : ¬ N = 0 := by omega
  have hfd : Int.fdiv (jsGetMinutes now) N = jsGetMinutes now / N :=
    Int.fdiv_eq_ediv _ (le_of_lt hN)
  have hform : nextMinOf now N = (jsGetMinutes now / N + 1) * N := by
    rw [nextMinOf, hfd]; ring
  have hcur0 : 0 ≤ jsGetMinutes now := by simp only [jsGetMinutes]; omega
  have hlt : jsGetMinutes now < nextMinOf now N := by
    rw [hform]; exact Int.lt_ediv_add_one_mul_self _ hN
  have hle : nextMinOf now N ≤ jsGetMinutes now + N := by
    have h1 : jsGetMinutes now / N * N ≤ jsGetMinutes now :=
      Int.ediv_mul_le _ (by omega)
    rw [hform]; nlinarith [h1]
  have hmod : nextMinOf now N % N = 0 := by
    rw [hform]; exact Int.mul_emod_left _ _
  have emin : minuteStep now m
      = (if 60 ≤ nextMinOf now N
         then (some (jsSetMinutes (jsSetHours now (jsGetHours now + 1))
                 (nextMinOf now N - 60)), true)
         else (some (jsSetMinutes now (nextMinOf now N)), false)) := by
    simp only [minuteStep, hsw, hparse, if_true, hN0, if_false, if_neg hN0]
    rfl
  have ecand : (minuteStep now m).1
      = some (now - jsGetMinutes now + nextMinOf now N) := by
    rw [emin]
    rcases le_or_lt 60 (nextMinOf now N) with h60 | h60
    · rw [if_pos h60]
      show some (jsSetMinutes (jsSetHours now (jsGetHours now + 1))
        (nextMinOf now N - 60)) = _
      congr 1
      simp only [jsSetMinutes, jsSetHours, jsGetHours, jsGetMinutes]
      omega
    · rw [if_neg (not_le.mpr h60)]
      rfl
  have ehour : hourStep now m "*" (minuteStep now m) = (minuteStep now m).1 := rfl
  have edow : dowStep now "*" ((minuteStep now m).1) = (minuteStep now m).1 := rfl
  have emain : calculateNextRunParts [m, "*", "*", "*", "*"] now
      = formatLabel now (dowStep now "*" (hourStep now m "*" (minuteStep now m))) := rfl
  refine ⟨?_, hlt, hle, hmod, ?_, ?_⟩
  · rw [emain, ehour, edow, ecand]
  · intro h60
    constructor <;> (simp only [jsGetMinutes]; omega)
  · intro h60 h120
    constructor <;> (simp only [jsGetMinutes]; omega)

/-- Witness for C6: the universal part applied at `*/15` and 10:07. -/
theorem nextRun_minute_step_witness :
    calculateNextRunParts ["*/15", "*", "*", "*", "*"] (mkDT 2026 0 12 10 7)
        = formatLabel (mkDT 2026 0 12 10 7)
            (some (mkDT 2026 0 12 10 7 - jsGetMinutes (mkDT 2026 0 12 10 7)
              + nextMinOf (mkDT 2026 0 12 10 7) 15))
    ∧ jsGetMinutes (mkDT 2026 0 12 10 7) < nextMinOf (mkDT 2026 0 12 10 7) 15
    ∧ nextMinOf (mkDT 2026 0 12 10 7) 15 ≤ jsGetMinutes (mkDT 2026 0 12 10 7) + 15
    ∧ nextMinOf (mkDT 2026 0 12 10 7) 15 % 15 = 0
    ∧ (nextMinOf (mkDT 2026 0 12 10 7) 15 < 60 →
        (mkDT 2026 0 12 10 7 - jsGetMinutes (mkDT 2026 0 12 10 7)
            + nextMinOf (mkDT 2026 0 12 10 7) 15) / 60 = mkDT 2026 0 12 10 7 / 60
        ∧ jsGetMinutes (mkDT 2026 0 12 10 7 - jsGetMinutes (mkDT 2026 0 12 10 7)
            + nextMinOf (mkDT 2026 0 12 10 7) 15) = nextMinOf (mkDT 2026 0 12 10 7) 15)
    ∧ (60 ≤ nextMinOf (mkDT 2026 0 12 10 7) 15 → nextMinOf (mkDT 2026 0 12 10 7) 15 < 120 →
        (mkDT 2026 0 12 10 7 - jsGetMinutes (mkDT 2026 0 12 10 7)
            + nextMinOf (mkDT 2026 0 12 10 7) 15) / 60 = mkDT 2026 0 12 10 7 / 60 + 1
        ∧ jsGetMinutes (mkDT 2026 0 12 10 7 - jsGetMinutes (mkDT 2026 0 12 10 7)
            + nextMinOf (mkDT 2026 0 12 10 7) 15) = nextMinOf (mkDT 2026 0 12 10 7) 15 - 60) :=
  nextRun_minute_step.1 "*/15" 15 (mkDT 2026 0 12 10 7) (by decide) (by decide) (by decide)

/-! ## Claim C9: the day prefix rule (corrected) -/

/-- C9 counterexample: at Saturday 2026-01-31 14:00 with schedule
`0 9 * * *`, the candidate is 2026-02-01 9:00 — exactly one calendar day
ahead (its epoch-day index is one larger) — yet the label carries the
weekday name `Sun`, not `Tomorrow`, because `isTomorrow` compares only
day-of-month (`1 === 31 + 1` fails) and ignores the month rollover. -/
theorem tomorrow_month_boundary_counterexample :
    mkDT 2026 1 1 9 0 / 1440 = mkDT 2026 0 31 14 0 / 1440 + 1
  ∧ hourStep (mkDT 2026 0 31 14 0) "0" "9" (minuteStep (mkDT 2026 0 31 14 0) "0")
      = some (mkDT 2026 1 1 9 0)
  ∧ calculateNextRun "0 9 * * *" (mkDT 2026 0 31 14 0) = "Sun 9:00am"
  ∧ strStartsWith "Sun 9:00am" "Tomorrow " = false := by
  refine ⟨by decide, by decide, by decide, by decide⟩

/-- C9 amended: for a valid candidate the day prefix is `""` exactly when
the candidate's day-of-month and month both equal now's; `"Tomorrow "`
exactly when that fails and the candidate's DAY-OF-MONTH equals now's
plus one (no month component is compared, so a next-day candidate that
falls in the following month instead gets the weekday name); and the
abbreviated weekday name plus a space otherwise.  Every 5-or-more-field
schedule's label is this day prefix followed by the clock time, and at
Saturday 2026-02-28 21:00 the schedule `0 20 * * *` indeed labels the
next-day candidate 2026-03-01 20:00 with `Sun`, not `Tomorrow`. -/
theorem dayLabel_amended :
    (∀ (now next : Int),
      dayLabelOf now (some next) =
        if jsGetDate next = jsGetDate now ∧ jsGetMonth next = jsGetMonth now then ""
        else if jsGetDate next = jsGetDate now + 1 then "Tomorrow "
        else weekdayShortName (jsGetDay next) ++ " ")
  ∧ (∀ (mi h dm mo dw : String) (rest : List String) (now : Int),
      calculateNextRunParts (mi :: h :: dm :: mo :: dw :: rest) now
        = dayLabelOf now (dowStep now dw (hourStep now mi h (minuteStep now mi)))
          ++ timeStrOf (dowStep now dw (hourStep now mi h (minuteStep now mi))))
  ∧ calculateNextRun "0 20 * * *" (mkDT 2026 1 28 21 0) = "Sun 8:00pm" := by
  refine ⟨?_, fun mi h dm mo dw rest now => rfl, by decide⟩
  intro now next
  simp only [dayLabelOf, oGet, jsEqNum, Bool.and_eq_true, decide_eq_true_eq]

end DWE
